import Mathlib

/-!
Shallow embedding of the quiz session core of `src/App.js` (a React trivia
app).  The React `useState` fields become one record `AppState`; each event
handler becomes a function on that record.  React batches the `setX` calls
issued inside one handler (and inside each synchronous segment of the async
`fetchQuestions`), so a handler is modelled as a single state-to-state
function; the `await` boundary inside `fetchQuestions` splits it into a
synchronous prefix (merged into `handleStartQuiz`) and a completion step
(`applyFetchOutcome`).

The HTML-entity decoder (`decodeHtml`, DOM based) is an external pure
dependency and is carried as a parameter `decode : String → String`.

`shuffleArray = (array) => [...array].sort(() => Math.random() - 0.5)` sorts
with an inconsistent random comparator, so the engine returns some
implementation-dependent permutation of the input.  We model the engine sort
as an insertion sort whose comparisons consume a stream `c : Nat → Bool` of
random outcomes (`c k = true` means the k-th call of the comparator returned
a negative value); every claim about it uses only permutation facts, which
hold for any such sort.  The spread copy and in-place mutation of `.sort`
are modelled explicitly by a small array store for the non-mutation claim.
-/

namespace GkQuiz

/-- A raw question record as delivered in `data.results` by the trivia API
(fields still HTML-entity escaped). -/
structure RawQuestion where
  question : String
  correct_answer : String
  incorrect_answers : List String
deriving DecidableEq, Repr

/-- A question after the formatting step in `fetchQuestions`
(fields decoded, `answers` the shuffled answer pool). -/
structure FormattedQuestion where
  question : String
  correct_answer : String
  incorrect_answers : List String
  answers : List String
deriving DecidableEq, Repr

/-- The values of the `gameState` React state variable. -/
inductive GameState where
  | start
  | active
  | finished
deriving DecidableEq, Repr

/-- The React state of the `App` component: one field per `useState`. -/
structure AppState where
  gameState : GameState
  questions : List FormattedQuestion
  currentQuestionIndex : Nat
  score : Nat
  selectedAnswer : Option String
  isAnswered : Bool
  loading : Bool
  error : Option String
deriving DecidableEq, Repr

/-- The initial values of the eight `useState` hooks. -/
def initialState : AppState :=
  { gameState := .start
    questions := []
    currentQuestionIndex := 0
    score := 0
    selectedAnswer := none
    isAnswered := false
    loading := false
    error := none }

/-! ### The random sort behind `shuffleArray` -/

/-- One insertion of the modelled engine sort: place `a` into `l`, asking the
random comparator (stream `c`, next index `k`) at each position.  Returns the
new list and the next unused stream index. -/
def insertR (c : Nat → Bool) (a : α) : List α → Nat → List α × Nat
  | [], k => ([a], k)
  | b :: l, k =>
    if c k then (a :: b :: l, k + 1)
    else (b :: (insertR c a l (k + 1)).1, (insertR c a l (k + 1)).2)

/-- The modelled engine sort: insertion sort driven by the random comparator
stream `c`, starting at stream index `k`. -/
def sortR (c : Nat → Bool) : List α → Nat → List α × Nat
  | [], k => ([], k)
  | a :: l, k => insertR c a (sortR c l k).1 (sortR c l k).2

/-- The list produced by `array.sort(() => Math.random() - 0.5)` when the
comparator returns the outcomes `c`. -/
def shuffleList (c : Nat → Bool) (l : List α) : List α :=
  (sortR c l 0).1

/-! ### A store of JS arrays, for the mutation behaviour of `shuffleArray` -/

/-- A store of JS arrays; an array reference is an index into `cells`. -/
structure ArrayStore (α : Type) where
  cells : List (List α)

/-- Dereference an array reference. -/
def readArray (st : ArrayStore α) (ref : Nat) : List α :=
  st.cells.getD ref []

/-- `[...array]`: allocate a fresh array holding a copy of the elements,
returning the new store and the fresh reference. -/
def spreadCopy (st : ArrayStore α) (ref : Nat) : ArrayStore α × Nat :=
  (⟨st.cells ++ [readArray st ref]⟩, st.cells.length)

/-- `arr.sort(cmp)`: sorts the referenced array in place and returns the same
reference. -/
def sortCall (c : Nat → Bool) (st : ArrayStore α) (ref : Nat) :
    ArrayStore α × Nat :=
  (⟨st.cells.set ref (shuffleList c (readArray st ref))⟩, ref)

/-- `shuffleArray = (array) => [...array].sort(() => Math.random() - 0.5)`:
spread-copy the argument, then sort the copy in place. -/
def shuffleArray (c : Nat → Bool) (st : ArrayStore α) (ref : Nat) :
    ArrayStore α × Nat :=
  sortCall c (spreadCopy st ref).1 (spreadCopy st ref).2

/-! ### Question formatting (the `formattedQuestions` map in `fetchQuestions`) -/

/-- The body of the `data.results.map` in `fetchQuestions`: spread the raw
record, decode the text fields, and build `answers` by shuffling the decoded
incorrect answers followed by the decoded correct answer. -/
def formatQuestion (decode : String → String) (c : Nat → Bool)
    (q : RawQuestion) : FormattedQuestion :=
  { question := decode q.question
    correct_answer := decode q.correct_answer
    incorrect_answers := q.incorrect_answers.map decode
    answers := shuffleList c (q.incorrect_answers.map decode ++ [decode q.correct_answer]) }

/-- `data.results.map((questionItem) => ...)`: each call of `shuffleArray`
draws fresh randomness, modelled by giving question `i` the stream `c i`. -/
def formatQuestions (decode : String → String) (c : Nat → Nat → Bool)
    (rs : List RawQuestion) : List FormattedQuestion :=
  rs.enum.map fun p => formatQuestion decode (c p.1) p.2

/-! ### The fetch and its validation -/

/-- The parsed JSON body expected from the trivia API. -/
structure ApiBody where
  response_code : Int
  results : List RawQuestion
deriving DecidableEq, Repr

/-- One outcome of the `fetch` call: the promise rejects with a message, or a
response arrives with `ok` status flag and a body that `response.json()`
either parses (`Except.ok`) or rejects on (`Except.error` with the engine
message). -/
inductive FetchOutcome where
  | networkError (msg : String)
  | response (ok : Bool) (body : Except String ApiBody)
deriving Repr

/-- The message thrown on a non-ok HTTP response. -/
def transportErrorMsg : String := "Something went wrong. Could not fetch questions."

/-- The message thrown on a non-zero `response_code`. -/
def bankErrorMsg : String := "There was an issue with the trivia API. Please try again later."

/-- The validation in the `try` block of `fetchQuestions`: non-ok response
throws the transport message, a body that fails to parse rethrows the parse
message, a non-zero `response_code` throws the bank message, otherwise the
raw results are returned. -/
def fetchResult (o : FetchOutcome) : Except String (List RawQuestion) :=
  match o with
  | .networkError msg => .error msg
  | .response ok body =>
    if ok then
      match body with
      | .error msg => .error msg
      | .ok data =>
        if data.response_code ≠ 0 then .error bankErrorMsg
        else .ok data.results
    else .error transportErrorMsg

/-! ### Event handlers -/

/-- `handleStartQuiz` together with the synchronous prefix of
`fetchQuestions` (everything before the `await fetch`): reset score and
index, set loading, clear the error, switch to the active screen, clear the
selection and the answered flag.  `questions` is not touched here. -/
def handleStartQuiz (s : AppState) : AppState :=
  { s with
    score := 0
    currentQuestionIndex := 0
    loading := true
    error := none
    gameState := .active
    selectedAnswer := none
    isAnswered := false }

/-- Resuming `fetchQuestions` after the response is known: on success store
the formatted questions; on any thrown error store the message and go back to
the start screen; `finally` clears `loading` in both cases. -/
def applyFetchOutcome (decode : String → String) (c : Nat → Nat → Bool)
    (s : AppState) (o : FetchOutcome) : AppState :=
  match fetchResult o with
  | .ok results =>
    { s with questions := formatQuestions decode c results, loading := false }
  | .error msg =>
    { s with error := some msg, gameState := .start, loading := false }

/-- `handleAnswerSelect`.  Returns the state after the handler and a flag
that is `true` when the handler threw a `TypeError`
(`questions[currentQuestionIndex]` is `undefined` when the index is out of
range, so reading `.correct_answer` throws; the `setSelectedAnswer` and
`setIsAnswered` updates were already enqueued and still commit). -/
def handleAnswerSelect (s : AppState) (answer : String) : AppState × Bool :=
  if s.isAnswered then (s, false)
  else
    let s1 := { s with selectedAnswer := some answer, isAnswered := true }
    match s.questions[s.currentQuestionIndex]? with
    | none => (s1, true)
    | some q =>
      if answer = q.correct_answer then ({ s1 with score := s1.score + 1 }, false)
      else (s1, false)

/-- `handleNextQuestion`.  The JS comparison
`currentQuestionIndex < questions.length - 1` is over JS numbers, so it is
modelled over `Int` (for an empty list the bound is `-1`). -/
def handleNextQuestion (s : AppState) : AppState :=
  if (s.currentQuestionIndex : Int) < (s.questions.length : Int) - 1 then
    { s with
      currentQuestionIndex := s.currentQuestionIndex + 1
      selectedAnswer := none
      isAnswered := false }
  else
    { s with gameState := .finished }

/-! ### Reachable states -/

/-- The states the component can reach from its initial state: user intents
(`handleStartQuiz`, `handleAnswerSelect`, `handleNextQuestion`) may fire at
any time; a fetch completion may arrive whenever a fetch is in flight
(`loading = true`), with arbitrary outcome and arbitrary shuffle
randomness. -/
inductive Reachable (decode : String → String) : AppState → Prop where
  | init : Reachable decode initialState
  | step_start {s : AppState} :
      Reachable decode s → Reachable decode (handleStartQuiz s)
  | step_select {s : AppState} (a : String) :
      Reachable decode s → Reachable decode (handleAnswerSelect s a).1
  | step_next {s : AppState} :
      Reachable decode s → Reachable decode (handleNextQuestion s)
  | step_fetch {s : AppState} (c : Nat → Nat → Bool) (o : FetchOutcome) :
      Reachable decode s → s.loading = true →
      Reachable decode (applyFetchOutcome decode c s o)

/-- Quiz-play intents available after the questions are on screen. -/
inductive PlayAction where
  | select (a : String)
  | next
deriving DecidableEq, Repr

/-- Apply one play intent (the state component of `handleAnswerSelect`). -/
def playStep (s : AppState) : PlayAction → AppState
  | .select a => (handleAnswerSelect s a).1
  | .next => handleNextQuestion s

/-- Apply a sequence of play intents. -/
def playRun (s : AppState) : List PlayAction → AppState
  | [] => s
  | act :: rest => playRun (playStep s act) rest

/-! ### Permutation facts about the modelled sort -/

theorem insertR_perm (c : Nat → Bool) (a : α) :
    ∀ (l : List α) (k : Nat), List.Perm (insertR c a l k).1 (a :: l)
  | [], _ => by simp [insertR]
  | b :: l, k => by
    simp only [insertR]
    split
    · exact List.Perm.refl _
    · exact ((insertR_perm c a l (k + 1)).cons b).trans (List.Perm.swap a b l)

theorem sortR_perm (c : Nat → Bool) :
    ∀ (l : List α) (k : Nat), List.Perm (sortR c l k).1 l
  | [], _ => by simp [sortR]
  | a :: l, k => by
    simp only [sortR]
    exact (insertR_perm c a _ _).trans ((sortR_perm c l k).cons a)

theorem shuffleList_perm (c : Nat → Bool) (l : List α) :
    List.Perm (shuffleList c l) l :=
  sortR_perm c l 0

theorem getD_append_length (l : List α) (x d : α) :
    (l ++ [x]).getD l.length d = x := by
  induction l with
  | nil => rfl
  | cons a l ih => simp only [List.cons_append, List.length_cons, List.getD_cons_succ, ih]

theorem set_append_length (l : List α) (x y : α) :
    (l ++ [x]).set l.length y = l ++ [y] := by
  induction l with
  | nil => rfl
  | cons a l ih => simp only [List.cons_append, List.length_cons, List.set_cons_succ, ih]

theorem getD_append_lt (l l2 : List α) (d : α) (n : Nat) (h : n < l.length) :
    (l ++ l2).getD n d = l.getD n d := by
  induction l generalizing n with
  | nil => exact absurd h (by simp)
  | cons a l ih =>
    cases n with
    | zero => rfl
    | succ n => simpa using ih n (by simpa using h)

/-- C8: `shuffleArray` returns a fresh array whose elements are a
permutation of the input array, and the input array (and every other array
in the store) is left unchanged. -/
theorem C8_shuffle_is_unmutating_perm (c : Nat → Bool) (st : ArrayStore α)
    (ref : Nat) (h : ref < st.cells.length) :
    List.Perm (readArray (shuffleArray c st ref).1 (shuffleArray c st ref).2)
      (readArray st ref) ∧
    (shuffleArray c st ref).2 ≠ ref ∧
    ∀ i, i < st.cells.length →
      readArray (shuffleArray c st ref).1 i = readArray st i := by
  have hcells : (shuffleArray c st ref).1.cells
      = st.cells ++ [shuffleList c (readArray st ref)] := by
    simp only [shuffleArray, sortCall, spreadCopy]
    rw [show readArray ⟨st.cells ++ [readArray st ref]⟩ st.cells.length
          = readArray st ref from getD_append_length _ _ _]
    exact set_append_length _ _ _
  have href : (shuffleArray c st ref).2 = st.cells.length := rfl
  refine ⟨?_, ?_, ?_⟩
  · rw [href]
    show List.Perm ((shuffleArray c st ref).1.cells.getD st.cells.length [])
      (readArray st ref)
    rw [hcells, getD_append_length]
    exact shuffleList_perm c (readArray st ref)
  · rw [href]; omega
  · intro i hi
    show (shuffleArray c st ref).1.cells.getD i [] = readArray st i
    rw [hcells, getD_append_lt _ _ _ _ hi]
    rfl

/-- C8 witness: the theorem applied to a concrete one-array store. -/
theorem C8_shuffle_is_unmutating_perm_witness :
    0 < (ArrayStore.mk [["a", "b", "c"]] : ArrayStore String).cells.length ∧
    (List.Perm
      (readArray (shuffleArray (fun _ => true) (ArrayStore.mk [["a", "b", "c"]]) 0).1
        (shuffleArray (fun _ => true) (ArrayStore.mk [["a", "b", "c"]]) 0).2)
      (readArray (ArrayStore.mk [["a", "b", "c"]]) 0) ∧
    (shuffleArray (fun _ => true) (ArrayStore.mk [["a", "b", "c"]]) 0).2 ≠ 0 ∧
    ∀ i, i < (ArrayStore.mk [["a", "b", "c"]] : ArrayStore String).cells.length →
      readArray (shuffleArray (fun _ => true) (ArrayStore.mk [["a", "b", "c"]]) 0).1 i
        = readArray (ArrayStore.mk [["a", "b", "c"]]) i) :=
  ⟨by decide,
    C8_shuffle_is_unmutating_perm (fun _ => true) (ArrayStore.mk [["a", "b", "c"]]) 0
      (by decide)⟩

/-- C7: when the decoded answer strings of a raw question are pairwise
distinct, the formatted answer pool has length `n + 1`, contains the decoded
correct answer exactly once, and every entry is the decoding of one of the
source answer strings. -/
theorem C7_format_answer_pool (decode : String → String) (c : Nat → Bool)
    (q : RawQuestion)
    (hd : (decode q.correct_answer :: q.incorrect_answers.map decode).Nodup) :
    (formatQuestion decode c q).answers.length = q.incorrect_answers.length + 1 ∧
    (formatQuestion decode c q).answers.count (formatQuestion decode c q).correct_answer = 1 ∧
    ∀ a ∈ (formatQuestion decode c q).answers,
      a = decode q.correct_answer ∨ ∃ s0 ∈ q.incorrect_answers, a = decode s0 := by
  have hperm : List.Perm (formatQuestion decode c q).answers
      (q.incorrect_answers.map decode ++ [decode q.correct_answer]) :=
    shuffleList_perm c _
  have hnotmem : decode q.correct_answer ∉ q.incorrect_answers.map decode :=
    (List.nodup_cons.mp hd).1
  refine ⟨?_, ?_, ?_⟩
  · rw [hperm.length_eq]
    simp
  · rw [show (formatQuestion decode c q).correct_answer = decode q.correct_answer from rfl,
      hperm.count_eq]
    rw [List.count_append, List.count_eq_zero.mpr hnotmem]
    simp
  · intro a ha
    have : a ∈ q.incorrect_answers.map decode ++ [decode q.correct_answer] :=
      hperm.mem_iff.mp ha
    rcases List.mem_append.mp this with hmem | hmem
    · rcases List.mem_map.mp hmem with ⟨s0, hs0, rfl⟩
      exact Or.inr ⟨s0, hs0, rfl⟩
    · exact Or.inl (List.mem_singleton.mp hmem)

/-- C7 witness: the theorem applied to a concrete raw question with two
incorrect answers and the identity decoder. -/
theorem C7_format_answer_pool_witness :
    ((fun s => s) (RawQuestion.mk "Q" "b" ["a", "c"]).correct_answer ::
        (RawQuestion.mk "Q" "b" ["a", "c"]).incorrect_answers.map (fun s => s)).Nodup ∧
    ((formatQuestion (fun s => s) (fun _ => true) (RawQuestion.mk "Q" "b" ["a", "c"])).answers.length
        = (RawQuestion.mk "Q" "b" ["a", "c"]).incorrect_answers.length + 1 ∧
    (formatQuestion (fun s => s) (fun _ => true) (RawQuestion.mk "Q" "b" ["a", "c"])).answers.count
        (formatQuestion (fun s => s) (fun _ => true) (RawQuestion.mk "Q" "b" ["a", "c"])).correct_answer = 1 ∧
    ∀ a ∈ (formatQuestion (fun s => s) (fun _ => true) (RawQuestion.mk "Q" "b" ["a", "c"])).answers,
      a = (fun s => s) (RawQuestion.mk "Q" "b" ["a", "c"]).correct_answer ∨
        ∃ s0 ∈ (RawQuestion.mk "Q" "b" ["a", "c"]).incorrect_answers, a = (fun s => s) s0) :=
  ⟨by decide,
    C7_format_answer_pool (fun s => s) (fun _ => true) (RawQuestion.mk "Q" "b" ["a", "c"])
      (by decide)⟩

/-! ### Concrete sample data used by witnesses and counterexamples -/

/-- A concrete formatted question. -/
def sampleFQ : FormattedQuestion :=
  { question := "What is the capital of France?"
    correct_answer := "Paris"
    incorrect_answers := ["London", "Berlin", "Rome"]
    answers := ["London", "Paris", "Berlin", "Rome"] }

/-- A concrete active, unlocked state holding one question. -/
def activeState : AppState :=
  { gameState := .active
    questions := [sampleFQ]
    currentQuestionIndex := 0
    score := 0
    selectedAnswer := none
    isAnswered := false
    loading := false
    error := none }

/-- A concrete finished, unlocked state holding one question. -/
def finishedUnlockedState : AppState :=
  { activeState with gameState := .finished }

/-- A concrete locked state. -/
def lockedState : AppState :=
  { activeState with isAnswered := true, selectedAnswer := some "Paris", score := 1 }

/-- A fetch outcome with a non-ok HTTP status (for example HTTP 500). -/
def http500 : FetchOutcome := .response false (.ok (ApiBody.mk 0 []))

/-! ### C1: what `start` resets, and the state after a failed fetch -/

/-- C1 counterexample: from a prior state whose `questions` list is
non-empty, `start` followed by a failed fetch (HTTP 500, the transport
error) leaves `questions` non-empty, contradicting the claim that `start`
resets `questions` and that after a failed fetch `questions` is empty. -/
theorem C1_counterexample :
    (applyFetchOutcome (fun s => s) (fun _ _ => true) (handleStartQuiz activeState)
        http500).error = some transportErrorMsg ∧
    (applyFetchOutcome (fun s => s) (fun _ _ => true) (handleStartQuiz activeState)
        http500).gameState = GameState.start ∧
    (applyFetchOutcome (fun s => s) (fun _ _ => true) (handleStartQuiz activeState)
        http500).questions ≠ [] := by
  decide

/-- C1 amended: `start` resets `score`, `currentIndex`, `selectedAnswer`,
`isLocked` and `lastError` before initiating the fetch, but does NOT reset
`questions`; when the fetch fails, the resulting failed state has `score = 0`
and the error message set with the session back at the start screen, while
`questions` keeps its previous value (empty only if it was empty before). -/
theorem C1_amended_start_reset (decode : String → String) (c : Nat → Nat → Bool)
    (s : AppState) (o : FetchOutcome) (msg : String)
    (hfail : fetchResult o = Except.error msg) :
    (handleStartQuiz s).score = 0 ∧
    (handleStartQuiz s).currentQuestionIndex = 0 ∧
    (handleStartQuiz s).selectedAnswer = none ∧
    (handleStartQuiz s).isAnswered = false ∧
    (handleStartQuiz s).error = none ∧
    (handleStartQuiz s).questions = s.questions ∧
    (applyFetchOutcome decode c (handleStartQuiz s) o).score = 0 ∧
    (applyFetchOutcome decode c (handleStartQuiz s) o).questions = s.questions ∧
    (applyFetchOutcome decode c (handleStartQuiz s) o).error = some msg ∧
    (applyFetchOutcome decode c (handleStartQuiz s) o).gameState = GameState.start := by
  refine ⟨rfl, rfl, rfl, rfl, rfl, rfl, ?_, ?_, ?_, ?_⟩ <;>
    simp [applyFetchOutcome, hfail, handleStartQuiz]

/-- C1 witness: the amended theorem applied to a concrete prior state and a
concrete failed fetch outcome. -/
theorem C1_amended_start_reset_witness :
    fetchResult http500 = Except.error transportErrorMsg ∧
    ((handleStartQuiz activeState).score = 0 ∧
    (handleStartQuiz activeState).currentQuestionIndex = 0 ∧
    (handleStartQuiz activeState).selectedAnswer = none ∧
    (handleStartQuiz activeState).isAnswered = false ∧
    (handleStartQuiz activeState).error = none ∧
    (handleStartQuiz activeState).questions = activeState.questions ∧
    (applyFetchOutcome (fun s => s) (fun _ _ => true) (handleStartQuiz activeState) http500).score = 0 ∧
    (applyFetchOutcome (fun s => s) (fun _ _ => true) (handleStartQuiz activeState) http500).questions = activeState.questions ∧
    (applyFetchOutcome (fun s => s) (fun _ _ => true) (handleStartQuiz activeState) http500).error = some transportErrorMsg ∧
    (applyFetchOutcome (fun s => s) (fun _ _ => true) (handleStartQuiz activeState) http500).gameState = GameState.start) :=
  ⟨rfl, C1_amended_start_reset (fun s => s) (fun _ _ => true) activeState http500
    transportErrorMsg rfl⟩

/-! ### C2: `advance` is not guarded by phase or lock -/

/-- C2 counterexample: the initial state is not Active and not locked, yet
`handleNextQuestion` changes it (it sets `gameState` to `finished`). -/
theorem C2_counterexample :
    initialState.gameState ≠ GameState.active ∧
    initialState.isAnswered = false ∧
    handleNextQuestion initialState ≠ initialState := by
  decide

/-- C2 amended: `advance` is unguarded; it is a no-op exactly when the index
is already at (or past) the last question and the phase is already
`finished`.  In every other state, Active and locked or not, it changes the
session. -/
theorem C2_amended_advance_noop_iff (s : AppState) :
    handleNextQuestion s = s ↔
      (¬ ((s.currentQuestionIndex : Int) < (s.questions.length : Int) - 1) ∧
        s.gameState = GameState.finished) := by
  unfold handleNextQuestion
  split
  · rename_i h
    constructor
    · intro heq
      have hci := congrArg AppState.currentQuestionIndex heq
      simp at hci
    · rintro ⟨h1, -⟩
      exact absurd h h1
  · rename_i h
    constructor
    · intro heq
      have hg := congrArg AppState.gameState heq
      exact ⟨h, hg.symm⟩
    · rintro ⟨-, hg⟩
      cases s
      simp_all

/-! ### C3: `selectAnswer` is guarded by the lock only, not by the phase -/

/-- C3 counterexample: in a finished (hence not Active), unlocked state,
`handleAnswerSelect` is not a no-op: it sets the selection, locks, and even
increments the score. -/
theorem C3_counterexample :
    finishedUnlockedState.gameState ≠ GameState.active ∧
    finishedUnlockedState.isAnswered = false ∧
    (handleAnswerSelect finishedUnlockedState "Paris").1.score
      = finishedUnlockedState.score + 1 ∧
    (handleAnswerSelect finishedUnlockedState "Paris").1.selectedAnswer
      = some "Paris" ∧
    (handleAnswerSelect finishedUnlockedState "Paris").1.isAnswered = true := by
  decide

/-- `handleAnswerSelect` is an exact no-op (state and throw flag) when the
lock is set. -/
theorem handleAnswerSelect_noop_of_isAnswered (s : AppState) (a : String)
    (h : s.isAnswered = true) : handleAnswerSelect s a = (s, false) := by
  unfold handleAnswerSelect
  simp [h]

/-- After any `handleAnswerSelect` call the lock is set. -/
theorem handleAnswerSelect_isAnswered (s : AppState) (a : String) :
    (handleAnswerSelect s a).1.isAnswered = true := by
  unfold handleAnswerSelect
  split
  · assumption
  · dsimp only
    split
    · rfl
    · split <;> rfl

/-- C3 amended: `selectAnswer` is a no-op whenever `isLocked = true` — the
phase is not consulted — and since any call leaves the lock set, calling it
twice in a row makes the second call an exact no-op, so only the first call
can count toward the score. -/
theorem C3_amended_noop_iff_locked :
    (∀ (s : AppState) (a : String), s.isAnswered = true →
      handleAnswerSelect s a = (s, false)) ∧
    (∀ (s : AppState) (a b : String),
      handleAnswerSelect (handleAnswerSelect s a).1 b
        = ((handleAnswerSelect s a).1, false)) :=
  ⟨handleAnswerSelect_noop_of_isAnswered,
    fun s a b => handleAnswerSelect_noop_of_isAnswered _ b
      (handleAnswerSelect_isAnswered s a)⟩

/-- C3 witness: the amended theorem applied to a concrete locked state and
to a concrete double call. -/
theorem C3_amended_noop_iff_locked_witness :
    lockedState.isAnswered = true ∧
    handleAnswerSelect lockedState "Rome" = (lockedState, false) ∧
    handleAnswerSelect (handleAnswerSelect activeState "Paris").1 "Berlin"
      = ((handleAnswerSelect activeState "Paris").1, false) :=
  ⟨rfl, C3_amended_noop_iff_locked.1 lockedState "Rome" rfl,
    C3_amended_noop_iff_locked.2 activeState "Paris" "Berlin"⟩

/-! ### C4: `selectAnswer` in an Active, unlocked state -/

/-- C4: in an Active, unlocked state with a question at the current index,
`selectAnswer` records the answer, locks further selection, and increments
the score by exactly one iff the answer equals the stored (decoded) correct
answer. -/
theorem C4_select_scores_correct_answer (s : AppState) (a : String)
    (q : FormattedQuestion) (hg : s.gameState = GameState.active)
    (hl : s.isAnswered = false)
    (hq : s.questions[s.currentQuestionIndex]? = some q) :
    (handleAnswerSelect s a).1.selectedAnswer = some a ∧
    (handleAnswerSelect s a).1.isAnswered = true ∧
    (handleAnswerSelect s a).2 = false ∧
    (a = q.correct_answer → (handleAnswerSelect s a).1.score = s.score + 1) ∧
    (a ≠ q.correct_answer → (handleAnswerSelect s a).1.score = s.score) ∧
    (handleAnswerSelect s a).1.currentQuestionIndex = s.currentQuestionIndex ∧
    (handleAnswerSelect s a).1.questions = s.questions ∧
    (handleAnswerSelect s a).1.gameState = s.gameState := by
  unfold handleAnswerSelect
  simp only [hl, hq, Bool.false_eq_true, if_false]
  split <;> simp_all

/-- C4 witness: the theorem applied to a concrete active state, once with
the correct answer. -/
theorem C4_select_scores_correct_answer_witness :
    activeState.gameState = GameState.active ∧
    activeState.isAnswered = false ∧
    activeState.questions[activeState.currentQuestionIndex]? = some sampleFQ ∧
    ((handleAnswerSelect activeState "Paris").1.selectedAnswer = some "Paris" ∧
    (handleAnswerSelect activeState "Paris").1.isAnswered = true ∧
    (handleAnswerSelect activeState "Paris").2 = false ∧
    ("Paris" = sampleFQ.correct_answer →
      (handleAnswerSelect activeState "Paris").1.score = activeState.score + 1) ∧
    ("Paris" ≠ sampleFQ.correct_answer →
      (handleAnswerSelect activeState "Paris").1.score = activeState.score) ∧
    (handleAnswerSelect activeState "Paris").1.currentQuestionIndex
      = activeState.currentQuestionIndex ∧
    (handleAnswerSelect activeState "Paris").1.questions = activeState.questions ∧
    (handleAnswerSelect activeState "Paris").1.gameState = activeState.gameState) :=
  ⟨rfl, rfl, rfl,
    C4_select_scores_correct_answer activeState "Paris" sampleFQ rfl rfl rfl⟩

/-! ### C5: `advance` in an Active, locked state; the score freeze -/

/-- Once the lock is set and the index is at (or past) the last question,
no sequence of play intents changes the score. -/
theorem playRun_score_frozen (acts : List PlayAction) :
    ∀ s : AppState, s.isAnswered = true →
    ¬ ((s.currentQuestionIndex : Int) < (s.questions.length : Int) - 1) →
    (playRun s acts).score = s.score := by
  induction acts with
  | nil => intro s _ _; rfl
  | cons act rest ih =>
    intro s hl hla
    cases act with
    | select a =>
      show (playRun (handleAnswerSelect s a).1 rest).score = s.score
      rw [handleAnswerSelect_noop_of_isAnswered s a hl]
      exact ih s hl hla
    | next =>
      show (playRun (handleNextQuestion s) rest).score = s.score
      have hnext : handleNextQuestion s = { s with gameState := GameState.finished } := by
        unfold handleNextQuestion
        rw [if_neg hla]
      rw [hnext]
      exact ih _ hl hla

/-- C5: in an Active, locked state, `advance` with questions remaining
increments the index and clears the selection and the lock; at the last
question it sets the phase to `finished`, and from there no further play
intents ever change the score. -/
theorem C5_advance_increments_or_finishes (s : AppState)
    (_hg : s.gameState = GameState.active) (hl : s.isAnswered = true) :
    (((s.currentQuestionIndex : Int) < (s.questions.length : Int) - 1) →
      handleNextQuestion s =
        { s with
          currentQuestionIndex := s.currentQuestionIndex + 1
          selectedAnswer := none
          isAnswered := false }) ∧
    (¬ ((s.currentQuestionIndex : Int) < (s.questions.length : Int) - 1) →
      (handleNextQuestion s).gameState = GameState.finished ∧
      (handleNextQuestion s).score = s.score ∧
      ∀ acts : List PlayAction,
        (playRun (handleNextQuestion s) acts).score = s.score) := by
  constructor
  · intro h
    unfold handleNextQuestion
    rw [if_pos h]
  · intro h
    have hnext : handleNextQuestion s = { s with gameState := GameState.finished } := by
      unfold handleNextQuestion
      rw [if_neg h]
    refine ⟨by rw [hnext], by rw [hnext], fun acts => ?_⟩
    rw [hnext]
    exact playRun_score_frozen acts _ hl h

/-- C5 witness: the theorem applied to a concrete locked state at the last
question, with a concrete sequence of further play intents. -/
theorem C5_advance_increments_or_finishes_witness :
    lockedState.gameState = GameState.active ∧
    lockedState.isAnswered = true ∧
    (handleNextQuestion lockedState).gameState = GameState.finished ∧
    (playRun (handleNextQuestion lockedState)
      [PlayAction.select "Rome", PlayAction.next, PlayAction.select "Paris"]).score
      = lockedState.score :=
  ⟨rfl, rfl,
    ((C5_advance_increments_or_finishes lockedState rfl rfl).2 (by decide)).1,
    ((C5_advance_increments_or_finishes lockedState rfl rfl).2 (by decide)).2.2
      [PlayAction.select "Rome", PlayAction.next, PlayAction.select "Paris"]⟩

/-! ### C6: score bound, monotonicity, reset only on start -/

/-- `handleAnswerSelect` never decreases the score. -/
theorem handleAnswerSelect_score_mono (s : AppState) (a : String) :
    s.score ≤ (handleAnswerSelect s a).1.score := by
  unfold handleAnswerSelect
  split
  · exact Nat.le_refl _
  · dsimp only
    split
    · exact Nat.le_refl _
    · split
      · exact Nat.le_succ _
      · exact Nat.le_refl _

/-- `handleNextQuestion` never changes the score. -/
theorem handleNextQuestion_score_eq (s : AppState) :
    (handleNextQuestion s).score = s.score := by
  unfold handleNextQuestion
  split <;> rfl

/-- A fetch completion never changes the score. -/
theorem applyFetchOutcome_score_eq (decode : String → String)
    (c : Nat → Nat → Bool) (s : AppState) (o : FetchOutcome) :
    (applyFetchOutcome decode c s o).score = s.score := by
  unfold applyFetchOutcome
  split <;> rfl

/-- In every reachable state the score is bounded by the number of answered
questions. -/
theorem reachable_score_le (decode : String → String) (s : AppState)
    (hr : Reachable decode s) :
    s.score ≤ s.currentQuestionIndex + (if s.isAnswered = true then 1 else 0) := by
  induction hr with
  | init => decide
  | step_start hr ih => simp [handleStartQuiz]
  | @step_select s a hr ih =>
    by_cases h : s.isAnswered = true
    · rw [handleAnswerSelect_noop_of_isAnswered s a h]
      exact ih
    · have h' : s.isAnswered = false := by
        cases hb : s.isAnswered
        · rfl
        · exact absurd hb h
      rw [h'] at ih
      simp only [Bool.false_eq_true, if_false, Nat.add_zero] at ih
      unfold handleAnswerSelect
      simp only [h', Bool.false_eq_true, if_false]
      cases hq : s.questions[s.currentQuestionIndex]? with
      | none =>
        simp only [hq]
        simpa using Nat.le_succ_of_le ih
      | some q =>
        simp only [hq]
        split
        · simpa using Nat.succ_le_succ ih
        · simpa using Nat.le_succ_of_le ih
  | @step_next s hr ih =>
    have hb : (if s.isAnswered = true then 1 else 0) ≤ 1 := by
      split
      · exact Nat.le_refl 1
      · exact Nat.zero_le 1
    unfold handleNextQuestion
    split
    · simpa using le_trans ih (Nat.add_le_add_left hb s.currentQuestionIndex)
    · simpa using ih
  | @step_fetch s c o hr hload ih =>
    unfold applyFetchOutcome
    split
    · simpa using ih
    · simpa using ih

/-- C6: in every reachable state, `score ≤ currentIndex + (1 if locked else
0)` and `score ≥ 0`; `selectAnswer` never decreases the score and `advance`
and fetch completions never change it (so within a run the score is
non-decreasing), and `start` is the transition that resets it to 0. -/
theorem C6_score_invariant (decode : String → String) :
    (∀ s : AppState, Reachable decode s →
      s.score ≤ s.currentQuestionIndex + (if s.isAnswered = true then 1 else 0) ∧
      0 ≤ s.score) ∧
    (∀ (s : AppState) (a : String), s.score ≤ (handleAnswerSelect s a).1.score) ∧
    (∀ s : AppState, (handleNextQuestion s).score = s.score) ∧
    (∀ (c : Nat → Nat → Bool) (s : AppState) (o : FetchOutcome),
      (applyFetchOutcome decode c s o).score = s.score) ∧
    (∀ s : AppState, (handleStartQuiz s).score = 0) :=
  ⟨fun s hr => ⟨reachable_score_le decode s hr, Nat.zero_le _⟩,
    handleAnswerSelect_score_mono,
    handleNextQuestion_score_eq,
    fun c s o => applyFetchOutcome_score_eq decode c s o,
    fun _ => rfl⟩

/-- C6 witness: the reachable-state bound applied to the initial state. -/
theorem C6_score_invariant_witness :
    initialState.score ≤ initialState.currentQuestionIndex +
      (if initialState.isAnswered = true then 1 else 0) ∧
    0 ≤ initialState.score :=
  (C6_score_invariant (fun s => s)).1 initialState Reachable.init

/-! ### C9: fetch validation and failure surfacing -/

/-- A fetch outcome with a 2xx status and a bank error code 1 in the body. -/
def bankFail : FetchOutcome := .response true (.ok (ApiBody.mk 1 []))

/-- C9: the fetch yields raw questions exactly when the HTTP status is ok
and the parsed body has `response_code = 0`; a non-ok status yields the
transport error message, a non-zero `response_code` yields the bank error
message, a success stores the formatted questions, and any failure surfaces
immediately: the error is set, the session is back at the start screen
(the Failed presentation), and no fetch is in flight any more. -/
theorem C9_fetch_success_iff (decode : String → String) (c : Nat → Nat → Bool)
    (s : AppState) (o : FetchOutcome) :
    ((∃ rs, fetchResult o = Except.ok rs) ↔
      (∃ body, o = FetchOutcome.response true (Except.ok body) ∧
        body.response_code = 0)) ∧
    (∀ body, o = FetchOutcome.response false body →
      fetchResult o = Except.error transportErrorMsg) ∧
    (∀ body, o = FetchOutcome.response true (Except.ok body) →
      body.response_code ≠ 0 → fetchResult o = Except.error bankErrorMsg) ∧
    (∀ body, o = FetchOutcome.response true (Except.ok body) →
      body.response_code = 0 →
      (applyFetchOutcome decode c s o).questions
        = formatQuestions decode c body.results ∧
      (applyFetchOutcome decode c s o).loading = false) ∧
    (∀ msg, fetchResult o = Except.error msg →
      (applyFetchOutcome decode c s o).error = some msg ∧
      (applyFetchOutcome decode c s o).gameState = GameState.start ∧
      (applyFetchOutcome decode c s o).loading = false ∧
      (applyFetchOutcome decode c s o).questions = s.questions ∧
      (applyFetchOutcome decode c s o).score = s.score) := by
  refine ⟨⟨?_, ?_⟩, ?_, ?_, ?_, ?_⟩
  · rintro ⟨rs, hrs⟩
    cases o with
    | networkError msg => simp [fetchResult] at hrs
    | response ok body =>
      cases ok with
      | false => simp [fetchResult] at hrs
      | true =>
        cases body with
        | error m => simp [fetchResult] at hrs
        | ok data =>
          by_cases hc : data.response_code = 0
          · exact ⟨data, rfl, hc⟩
          · simp [fetchResult, hc] at hrs
  · rintro ⟨body, rfl, hcode⟩
    exact ⟨body.results, by simp [fetchResult, hcode]⟩
  · rintro body rfl
    rfl
  · rintro body rfl hcode
    simp [fetchResult, hcode]
  · rintro body rfl hcode
    constructor
    · simp [applyFetchOutcome, fetchResult, hcode]
    · simp [applyFetchOutcome, fetchResult, hcode]
  · intro msg hmsg
    refine ⟨?_, ?_, ?_, ?_, ?_⟩ <;> simp [applyFetchOutcome, hmsg]

/-- C9 witness: the theorem applied to a concrete bank-error outcome
(`response_code = 1` under a 2xx status). -/
theorem C9_fetch_success_iff_witness :
    fetchResult bankFail = Except.error bankErrorMsg ∧
    (applyFetchOutcome (fun s => s) (fun _ _ => true) initialState bankFail).error
      = some bankErrorMsg ∧
    (applyFetchOutcome (fun s => s) (fun _ _ => true) initialState bankFail).gameState
      = GameState.start :=
  ⟨(C9_fetch_success_iff (fun s => s) (fun _ _ => true) initialState bankFail).2.2.1
      (ApiBody.mk 1 []) rfl (by decide),
    ((C9_fetch_success_iff (fun s => s) (fun _ _ => true) initialState bankFail).2.2.2.2
      bankErrorMsg
      ((C9_fetch_success_iff (fun s => s) (fun _ _ => true) initialState bankFail).2.2.1
        (ApiBody.mk 1 []) rfl (by decide))).1,
    ((C9_fetch_success_iff (fun s => s) (fun _ _ => true) initialState bankFail).2.2.2.2
      bankErrorMsg
      ((C9_fetch_success_iff (fun s => s) (fun _ _ => true) initialState bankFail).2.2.1
        (ApiBody.mk 1 []) rfl (by decide))).2.1⟩

/-! ### C10: the unchecked index read in `selectAnswer` -/

/-- When the index is in range, the `.correct_answer` read cannot throw. -/
theorem handleAnswerSelect_safe (s : AppState) (a : String)
    (h : s.currentQuestionIndex < s.questions.length) :
    (handleAnswerSelect s a).2 = false := by
  unfold handleAnswerSelect
  split
  · rfl
  · dsimp only
    cases hq : s.questions[s.currentQuestionIndex]? with
    | none =>
      rw [List.getElem?_eq_none_iff] at hq
      omega
    | some q =>
      simp only [hq]
      split <;> rfl

/-- When the lock is clear and the index is out of range, the handler
throws (reads `.correct_answer` of `undefined`). -/
theorem handleAnswerSelect_throws (s : AppState) (a : String)
    (h1 : s.isAnswered = false) (h2 : s.questions.length ≤ s.currentQuestionIndex) :
    (handleAnswerSelect s a).2 = true := by
  unfold handleAnswerSelect
  simp only [h1, Bool.false_eq_true, if_false]
  rw [List.getElem?_eq_none h2]

/-- C10: `selectAnswer` reads `questions[currentIndex].correct_answer`
without a bounds check, so it is throw-free exactly under the precondition
`currentIndex < len(questions)`; and the precondition is violated in a
reachable state, because `start` switches `gameState` to `active` and clears
the lock before the fetch resolves, while `questions` is still empty — in
that state any selection throws. -/
theorem C10_select_unchecked_read (decode : String → String) :
    (∀ (s : AppState) (a : String), s.currentQuestionIndex < s.questions.length →
      (handleAnswerSelect s a).2 = false) ∧
    (∀ (s : AppState) (a : String), s.isAnswered = false →
      s.questions.length ≤ s.currentQuestionIndex →
      (handleAnswerSelect s a).2 = true) ∧
    (Reachable decode (handleStartQuiz initialState) ∧
      (handleStartQuiz initialState).gameState = GameState.active ∧
      (handleStartQuiz initialState).isAnswered = false ∧
      (handleStartQuiz initialState).loading = true ∧
      (handleStartQuiz initialState).questions = [] ∧
      ∀ a : String, (handleAnswerSelect (handleStartQuiz initialState) a).2 = true) :=
  ⟨handleAnswerSelect_safe, handleAnswerSelect_throws,
    Reachable.step_start Reachable.init, rfl, rfl, rfl, rfl,
    fun a => handleAnswerSelect_throws _ a rfl (Nat.le_refl 0)⟩

/-- C10 witness: a concrete in-range call does not throw, and the concrete
reachable post-start state throws on any selection. -/
theorem C10_select_unchecked_read_witness :
    activeState.currentQuestionIndex < activeState.questions.length ∧
    (handleAnswerSelect activeState "Paris").2 = false ∧
    (handleAnswerSelect (handleStartQuiz initialState) "Paris").2 = true :=
  ⟨by decide,
    (C10_select_unchecked_read (fun s => s)).1 activeState "Paris" (by decide),
    (C10_select_unchecked_read (fun s => s)).2.2.2.2.2.2.2 "Paris"⟩

end GkQuiz
